import Mathlib

/-!
Send-funds options (`dapps/valuetransfers/packages/wallet/sendfunds_options.go`).

A shallow embedding of the functional options of the wallet's `SendFunds` call and of
`BuildOptions`, which folds them over a fresh `SendFundsOptions` record.

Conventions of the embedding:

* `address.Address`, `balance.Color` and the wallet's own `Address` type are declared
  outside the embedded file; they are type parameters (`Addr`, `Color`, `WAddr`), map keys
  need decidable equality, and `default : WAddr` is the zero value of the wallet address.
  `balance.ColorIOTA` is passed to `Destination` as a parameter.
* `uint64` amounts are natural numbers; the one arithmetic operation of the file, `+=`, is
  reduced modulo `2 ^ 64`.
* A Go `error` is `Option String`: `none` is `nil`, `some msg` is `errors.New(msg)`.
* A Go map is `GoMap`: either `nil` or an allocated table. Writing into a `nil` map panics.
  Maps are values here: a write into the inner map of an address is a write of the updated
  inner map under that address, so no two addresses share one inner map.
* An option, a Go `func(*SendFundsOptions) error`, is a function from the record before the
  call to `none` (the call panicked) or `some (record after the call, returned error)`.
-/

namespace Wallet

/-! ## Go values -/

/-- A Go `error` value: `none` is `nil`, `some msg` is the value of `errors.New(msg)`. -/
abbrev GoError := Option String

/-- The word size of `uint64`. -/
def uint64Size : Nat := 2 ^ 64

/-- A Go map value: the `nil` map, or an allocated table. The table is an association list in
which the first binding of a key is the entry of that key. -/
inductive GoMap (K V : Type) where
  | nil : GoMap K V
  | table (entries : List (K × V)) : GoMap K V
  deriving DecidableEq

namespace GoMap

variable {K V : Type} [DecidableEq K]

/-- The expression `make(map[K]V)`: an allocated table without entries. -/
def make : GoMap K V := table []

/-- The first binding of `k` in an association list. -/
def lookupEntries (k : K) : List (K × V) → Option V
  | [] => none
  | (k', v) :: rest => if k' = k then some v else lookupEntries k rest

/-- Overwrite the first binding of `k`, or add a binding when there is none. -/
def storeEntries (k : K) (v : V) : List (K × V) → List (K × V)
  | [] => [(k, v)]
  | (k', v') :: rest => if k' = k then (k, v) :: rest else (k', v') :: storeEntries k v rest

/-- The comma-ok read `v, ok := m[k]`: `none` when `ok` is false. Reading a `nil` map is
allowed and finds nothing. -/
def lookup (m : GoMap K V) (k : K) : Option V :=
  match m with
  | nil => none
  | table entries => lookupEntries k entries

/-- The index expression `m[k]`, which yields the zero value of `V` when `k` has no entry. -/
def index (zero : V) (m : GoMap K V) (k : K) : V :=
  (m.lookup k).getD zero

/-- The assignment `m[k] = v`: `none` is the run-time panic "assignment to entry in nil map". -/
def store (m : GoMap K V) (k : K) (v : V) : Option (GoMap K V) :=
  match m with
  | nil => none
  | table entries => some (table (storeEntries k v entries))

/-- The expression `len(m)`: the number of distinct keys; `len(nil)` is `0`. -/
def len (m : GoMap K V) : Nat :=
  match m with
  | nil => 0
  | table entries => (entries.map Prod.fst).dedup.length

/-- The test `m == nil`. -/
def isNil (m : GoMap K V) : Bool :=
  match m with
  | nil => true
  | table _ => false

end GoMap

/-! ## The options record and the options -/

/-- The struct `SendFundsOptions`. -/
structure SendFundsOptions (Addr Color WAddr : Type) where
  Destinations : GoMap Addr (GoMap Color Nat)
  RemainderAddress : WAddr
  deriving DecidableEq

/-- The type `SendFundsOption`, `func(*SendFundsOptions) error`: the record after the call and
the returned error, or `none` when the call panics. -/
abbrev SendFundsOption (Addr Color WAddr : Type) :=
  SendFundsOptions Addr Color WAddr → Option (SendFundsOptions Addr Color WAddr × GoError)

section Options

variable {Addr Color WAddr : Type} [DecidableEq Addr] [DecidableEq Color]

/-- The message of the error of a `Destination` call with two or more colors. -/
def errMoreThanOneColor : String :=
  "providing more than one output color for the destination of funds is forbidden"

/-- The message of the error of a `Destination` call with amount `0`. -/
def errZeroAmount : String :=
  "the amount provided in the destinations needs to be larger than 0"

/-- The message of the error of `BuildOptions` when the record has no destination. -/
def errNoDestination : String :=
  "you need to provide at least one Destination for a valid transfer to be issued"

/-- The function `optionError`: the option that returns `err` and does nothing else. -/
def optionError (err : GoError) : SendFundsOption Addr Color WAddr :=
  fun options => some (options, err)

/-- The closure returned by `Destination` (source lines 32-52) for the output color
`outputColor`. The inner map is reached through `options.Destinations[addr]`; the two
assignments to `options.Destinations[addr][outputColor]` write into that inner map, which
the outer map keeps under `addr`. -/
def destinationClosure (addr : Addr) (amount : Nat) (outputColor : Color) :
    SendFundsOption Addr Color WAddr :=
  fun options => do
    -- initialize destinations property
    let dests := if options.Destinations.isNil then GoMap.make else options.Destinations
    -- initialize address specific destination
    let dests ← if (dests.lookup addr).isNone then dests.store addr GoMap.make else pure dests
    -- initialize color specific destination
    let inner := dests.index GoMap.nil addr
    let inner ← if (inner.lookup outputColor).isNone then inner.store outputColor 0 else pure inner
    -- increase amount
    let inner ← inner.store outputColor ((inner.index 0 outputColor + amount) % uint64Size)
    let dests ← dests.store addr inner
    pure ({ options with Destinations := dests }, none)

/-- The function `Destination` (source lines 14-53): the color count is examined first, then
the amount, and only then the closure is built. -/
def Destination (ColorIOTA : Color) (addr : Addr) (amount : Nat) (optionalColor : List Color) :
    SendFundsOption Addr Color WAddr :=
  match optionalColor with
  | _ :: _ :: _ => optionError (some errMoreThanOneColor)
  | colors =>
    let outputColor := match colors with
      | [] => ColorIOTA
      | c :: _ => c
    if amount = 0 then optionError (some errZeroAmount)
    else destinationClosure addr amount outputColor

/-- The function `Remainder`. -/
def Remainder (addr : WAddr) : SendFundsOption Addr Color WAddr :=
  fun options => some ({ options with RemainderAddress := addr }, none)

/-- The loop of `BuildOptions` (source lines 76-80) from the record `result` on: the options
are applied in order and the first non-nil error ends the loop. -/
def applyOptions :
    List (SendFundsOption Addr Color WAddr) → SendFundsOptions Addr Color WAddr →
      Option (SendFundsOptions Addr Color WAddr × GoError)
  | [], result => some (result, none)
  | option :: rest, result =>
    match option result with
    | none => none
    | some (result', none) => applyOptions rest result'
    | some (result', some e) => some (result', some e)

/-- The record `&SendFundsOptions{}` with which `BuildOptions` starts: a `nil` map and the zero
value of the wallet address. -/
def emptyOptions [Inhabited WAddr] : SendFundsOptions Addr Color WAddr :=
  { Destinations := GoMap.nil, RemainderAddress := default }

/-- The function `BuildOptions`. The first component of the result is the pointer `result`
(`none` would be the nil pointer), the second is `err`; the outer `none` is a panic. -/
def BuildOptions [Inhabited WAddr] (options : List (SendFundsOption Addr Color WAddr)) :
    Option (Option (SendFundsOptions Addr Color WAddr) × GoError) :=
  match applyOptions options emptyOptions with
  | none => none
  | some (result, some e) => some (some result, some e)
  | some (result, none) =>
    if result.Destinations.len = 0 then some (some result, some errNoDestination)
    else some (some result, none)

end Options

/-! ## Vocabulary of the properties -/

section Vocabulary

variable {Addr Color WAddr : Type} [DecidableEq Addr] [DecidableEq Color]

/-- The bucket `Destinations[a][c]` read with comma-ok at both levels: `none` when the address
or the color has no entry. -/
def bucket (options : SendFundsOptions Addr Color WAddr) (a : Addr) (c : Color) : Option Nat :=
  (options.Destinations.lookup a).bind (fun inner => inner.lookup c)

/-- Whether the address `a` is a key of `Destinations`. -/
def hasAddress (options : SendFundsOptions Addr Color WAddr) (a : Addr) : Bool :=
  (options.Destinations.lookup a).isSome

/-- No address of `Destinations` is bound to a `nil` inner map. -/
def innerMapsAllocated (options : SendFundsOptions Addr Color WAddr) : Prop :=
  ∀ a, options.Destinations.lookup a ≠ some GoMap.nil

/-- Every amount stored in `Destinations` is strictly positive. -/
def leavesPositive (options : SendFundsOptions Addr Color WAddr) : Prop :=
  ∀ a c v, bucket options a c = some v → 0 < v

/-- Two records hold the same destinations: the same addresses are keys, and every bucket is
absent in both or present in both with the same amount. -/
def sameDestinations (r₁ r₂ : SendFundsOptions Addr Color WAddr) : Prop :=
  (∀ a, hasAddress r₁ a = hasAddress r₂ a) ∧ (∀ a c, bucket r₁ a c = bucket r₂ a c)

/-- The output color `Destination` selects for a list of at most one color (source lines
16-21): `ColorIOTA` for no color, the color itself for one. -/
def outputColor (ColorIOTA : Color) : List Color → Color
  | [] => ColorIOTA
  | c :: _ => c

/-- The `Destination` call described by an `(address, color, amount)` triple. -/
def tripleOption (ColorIOTA : Color) (t : Addr × Color × Nat) : SendFundsOption Addr Color WAddr :=
  Destination ColorIOTA t.1 t.2.2 [t.2.1]

/-- A call of one of the two exported option constructors, with its arguments. -/
inductive Call (Addr Color WAddr : Type) where
  | destination (addr : Addr) (amount : Nat) (optionalColor : List Color) : Call Addr Color WAddr
  | remainder (addr : WAddr) : Call Addr Color WAddr

/-- The option a call evaluates to. -/
def Call.option (ColorIOTA : Color) : Call Addr Color WAddr → SendFundsOption Addr Color WAddr
  | .destination addr amount optionalColor => Destination ColorIOTA addr amount optionalColor
  | .remainder addr => Remainder addr

/-- A `Destination` call is valid when its amount is positive and it has at most one color; a
`Remainder` call is always valid. -/
def Call.valid : Call Addr Color WAddr → Prop
  | .destination _ amount optionalColor => 0 < amount ∧ optionalColor.length ≤ 1
  | .remainder _ => True

instance Call.decidableValid : DecidablePred (Call.valid : Call Addr Color WAddr → Prop)
  | .destination _ amount optionalColor =>
    inferInstanceAs (Decidable (0 < amount ∧ optionalColor.length ≤ 1))
  | .remainder _ => inferInstanceAs (Decidable True)

/-- The call behind `tripleOption`. -/
def tripleCall (t : Addr × Color × Nat) : Call Addr Color WAddr :=
  .destination t.1 t.2.2 [t.2.1]

/-- Whether the call is a `Destination` call. -/
def Call.isDestination : Call Addr Color WAddr → Bool
  | .destination _ _ _ => true
  | .remainder _ => false

/-- Whether the call is a `Destination` call for the address `a`. -/
def Call.toAddress (a : Addr) : Call Addr Color WAddr → Bool
  | .destination addr _ _ => decide (addr = a)
  | .remainder _ => false

/-- Whether the call is a `Destination` call for the bucket `(a, c)`, a call without color
going to `ColorIOTA`. -/
def Call.targets (ColorIOTA : Color) (a : Addr) (c : Color) : Call Addr Color WAddr → Bool
  | .destination addr _ optionalColor =>
    decide (addr = a) && decide (outputColor ColorIOTA optionalColor = c)
  | .remainder _ => false

/-- The amount of a `Destination` call; `0` for a `Remainder` call. -/
def Call.amount : Call Addr Color WAddr → Nat
  | .destination _ amount _ => amount
  | .remainder _ => 0

/-- The arithmetic sum of the amounts of the calls for the bucket `(a, c)`. -/
def amountFor (ColorIOTA : Color) (a : Addr) (c : Color) (calls : List (Call Addr Color WAddr)) :
    Nat :=
  ((calls.filter (Call.targets ColorIOTA a c)).map Call.amount).sum

/-- The addresses of the `Remainder` calls, in sequence order. -/
def remainders (calls : List (Call Addr Color WAddr)) : List WAddr :=
  calls.filterMap fun call =>
    match call with
    | .destination _ _ _ => none
    | .remainder addr => some addr

end Vocabulary

/-! ## Go maps -/

namespace GoMap

variable {K V : Type} [DecidableEq K]

theorem lookupEntries_storeEntries (k k' : K) (v : V) (entries : List (K × V)) :
    lookupEntries k' (storeEntries k v entries) =
      if k' = k then some v else lookupEntries k' entries := by
  induction entries with
  | nil =>
    by_cases h : k' = k
    · simp [storeEntries, lookupEntries, h]
    · have h' : ¬ k = k' := fun e => h e.symm
      simp [storeEntries, lookupEntries, h, h']
  | cons e rest ih =>
    obtain ⟨k₀, v₀⟩ := e
    by_cases h₀ : k₀ = k
    · subst h₀
      by_cases h : k' = k₀
      · simp [storeEntries, lookupEntries, h]
      · have h' : ¬ k₀ = k' := fun e => h e.symm
        simp [storeEntries, lookupEntries, h, h']
    · by_cases h : k' = k
      · subst h
        simp [storeEntries, lookupEntries, h₀, ih]
      · by_cases h₁ : k₀ = k'
        · simp [storeEntries, lookupEntries, h₀, h, h₁]
        · simp [storeEntries, lookupEntries, h₀, h, h₁, ih]

theorem lookup_store {m m' : GoMap K V} {k : K} {v : V} (h : m.store k v = some m') (k' : K) :
    m'.lookup k' = if k' = k then some v else m.lookup k' := by
  cases m with
  | nil => simp [store] at h
  | table entries =>
    simp only [store, Option.some.injEq] at h
    subst h
    simp [lookup, lookupEntries_storeEntries]

theorem store_table (entries : List (K × V)) (k : K) (v : V) :
    (table entries).store k v = some (table (storeEntries k v entries)) := rfl

theorem isNil_of_store {m m' : GoMap K V} {k : K} {v : V} (h : m.store k v = some m') :
    m'.isNil = false := by
  cases m with
  | nil => simp [store] at h
  | table entries =>
    simp only [store, Option.some.injEq] at h
    subst h
    rfl

theorem len_eq_zero_of_isNil {m : GoMap K V} (h : m.isNil = true) : m.len = 0 := by
  cases m with
  | nil => rfl
  | table entries => simp [isNil] at h

theorem len_ne_zero_of_lookup {m : GoMap K V} {k : K} {v : V} (h : m.lookup k = some v) :
    m.len ≠ 0 := by
  cases m with
  | nil => simp [lookup] at h
  | table entries =>
    cases entries with
    | nil => simp [lookup, lookupEntries] at h
    | cons e rest =>
      simp only [len, ne_eq, List.length_eq_zero, List.dedup_eq_nil]
      simp

end GoMap

/-! ## One application of the closure of `Destination` -/

section Closure

variable {Addr Color WAddr : Type} [DecidableEq Addr] [DecidableEq Color]

theorem destinationClosure_nil (addr : Addr) (amount : Nat) (c : Color) (rem : WAddr) :
    destinationClosure addr amount c ⟨GoMap.nil, rem⟩ =
      destinationClosure addr amount c ⟨GoMap.table [], rem⟩ := rfl

theorem destinationClosure_table (addr : Addr) (amount : Nat) (c : Color)
    (es : List (Addr × GoMap Color Nat)) (rem : WAddr)
    (h : GoMap.lookupEntries addr es ≠ some GoMap.nil) :
    ∃ dests inner,
      destinationClosure addr amount c ⟨GoMap.table es, rem⟩ = some (⟨dests, rem⟩, none) ∧
      dests.isNil = false ∧ inner.isNil = false ∧
      (∀ a, dests.lookup a = if a = addr then some inner else GoMap.lookupEntries a es) ∧
      (∀ c', inner.lookup c' =
        if c' = c then
          some ((((GoMap.lookupEntries addr es).bind fun m => m.lookup c).getD 0 + amount)
            % uint64Size)
        else (GoMap.lookupEntries addr es).bind fun m => m.lookup c') := by
  cases h₁ : GoMap.lookupEntries addr es with
  | none =>
    refine ⟨GoMap.table (GoMap.storeEntries addr (GoMap.table [(c, amount % uint64Size)])
      (GoMap.storeEntries addr GoMap.make es)), GoMap.table [(c, amount % uint64Size)],
      ?_, rfl, rfl, ?_, ?_⟩
    · simp [destinationClosure, GoMap.isNil, GoMap.make, GoMap.lookup, GoMap.store,
        GoMap.index, GoMap.lookupEntries_storeEntries, h₁, GoMap.lookupEntries,
        GoMap.storeEntries]
    · intro a
      by_cases ha : a = addr <;> simp [GoMap.lookup, GoMap.lookupEntries_storeEntries, ha]
    · intro c'
      by_cases hc : c' = c
      · simp [GoMap.lookup, GoMap.lookupEntries, hc]
      · have hc' : ¬ c = c' := fun e => hc e.symm
        simp [GoMap.lookup, GoMap.lookupEntries, hc, hc']
  | some inner₀ =>
    cases inner₀ with
    | nil => exact absurd h₁ h
    | table ies =>
      cases h₂ : GoMap.lookupEntries c ies with
      | none =>
        refine ⟨GoMap.table (GoMap.storeEntries addr
          (GoMap.table (GoMap.storeEntries c (amount % uint64Size) (GoMap.storeEntries c 0 ies)))
          es), GoMap.table (GoMap.storeEntries c (amount % uint64Size)
            (GoMap.storeEntries c 0 ies)), ?_, rfl, rfl, ?_, ?_⟩
        · simp [destinationClosure, GoMap.isNil, GoMap.lookup, GoMap.store,
            GoMap.index, GoMap.lookupEntries_storeEntries, h₁, h₂]
        · intro a
          by_cases ha : a = addr <;> simp [GoMap.lookup, GoMap.lookupEntries_storeEntries, ha]
        · intro c'
          by_cases hc : c' = c
          · simp [GoMap.lookup, GoMap.lookupEntries_storeEntries, hc, h₂]
          · simp [GoMap.lookup, GoMap.lookupEntries_storeEntries, hc]
      | some v =>
        refine ⟨GoMap.table (GoMap.storeEntries addr
          (GoMap.table (GoMap.storeEntries c ((v + amount) % uint64Size) ies)) es),
          GoMap.table (GoMap.storeEntries c ((v + amount) % uint64Size) ies),
          ?_, rfl, rfl, ?_, ?_⟩
        · simp [destinationClosure, GoMap.isNil, GoMap.lookup, GoMap.store,
            GoMap.index, h₁, h₂]
        · intro a
          by_cases ha : a = addr <;> simp [GoMap.lookup, GoMap.lookupEntries_storeEntries, ha]
        · intro c'
          by_cases hc : c' = c
          · simp [GoMap.lookup, GoMap.lookupEntries_storeEntries, hc, h₂]
          · simp [GoMap.lookup, GoMap.lookupEntries_storeEntries, hc]

theorem destinationClosure_spec (addr : Addr) (amount : Nat) (c : Color)
    (options : SendFundsOptions Addr Color WAddr)
    (h : options.Destinations.lookup addr ≠ some GoMap.nil) :
    ∃ dests inner,
      destinationClosure addr amount c options =
        some (⟨dests, options.RemainderAddress⟩, none) ∧
      dests.isNil = false ∧ inner.isNil = false ∧
      (∀ a, dests.lookup a = if a = addr then some inner else options.Destinations.lookup a) ∧
      (∀ c', inner.lookup c' =
        if c' = c then some (((bucket options addr c).getD 0 + amount) % uint64Size)
        else bucket options addr c') := by
  obtain ⟨dests₀, rem⟩ := options
  cases dests₀ with
  | nil =>
    have h' : GoMap.lookupEntries addr ([] : List (Addr × GoMap Color Nat)) ≠ some GoMap.nil := by
      simp [GoMap.lookupEntries]
    obtain ⟨dests, inner, h₁, h₂, h₃, h₄, h₅⟩ := destinationClosure_table addr amount c [] rem h'
    exact ⟨dests, inner, (destinationClosure_nil addr amount c rem).trans h₁, h₂, h₃, h₄, h₅⟩
  | table es => exact destinationClosure_table addr amount c es rem h

end Closure

/-! ## Calls of the option constructors -/

section Calls

variable {Addr Color WAddr : Type} [DecidableEq Addr] [DecidableEq Color]

theorem Destination_of_valid (ColorIOTA : Color) (addr : Addr) (amount : Nat)
    (colors : List Color) (ha : 0 < amount) (hc : colors.length ≤ 1) :
    (Destination ColorIOTA addr amount colors : SendFundsOption Addr Color WAddr) =
      destinationClosure addr amount (outputColor ColorIOTA colors) := by
  have ha' : amount ≠ 0 := Nat.pos_iff_ne_zero.mp ha
  match colors, hc with
  | [], _ => simp [Destination, outputColor, ha']
  | [c], _ => simp [Destination, outputColor, ha']
  | _ :: _ :: _, hc => simp at hc

theorem Destination_zero_amount (ColorIOTA : Color) (addr : Addr) (colors : List Color)
    (hc : colors.length ≤ 1) :
    (Destination ColorIOTA addr 0 colors : SendFundsOption Addr Color WAddr) =
      optionError (some errZeroAmount) := by
  match colors, hc with
  | [], _ => simp [Destination]
  | [c], _ => simp [Destination]
  | _ :: _ :: _, hc => simp at hc

theorem Destination_many_colors (ColorIOTA : Color) (addr : Addr) (amount : Nat)
    (colors : List Color) (hc : 2 ≤ colors.length) :
    (Destination ColorIOTA addr amount colors : SendFundsOption Addr Color WAddr) =
      optionError (some errMoreThanOneColor) := by
  match colors, hc with
  | [], hc => simp at hc
  | [c], hc => simp at hc
  | _ :: _ :: _, _ => simp [Destination]

/-- An invalid call evaluates to an option that fails without touching the record. -/
theorem Call.option_of_not_valid (ColorIOTA : Color) (call : Call Addr Color WAddr)
    (hv : ¬ call.valid) :
    ∃ msg, call.option ColorIOTA = optionError (some msg) := by
  cases call with
  | remainder addr => exact absurd trivial hv
  | destination addr amount colors =>
    by_cases hc : colors.length ≤ 1
    · have ha : amount = 0 := by
        by_contra h0
        exact hv ⟨Nat.pos_of_ne_zero h0, hc⟩
      subst ha
      exact ⟨errZeroAmount, Destination_zero_amount ColorIOTA addr colors hc⟩
    · exact ⟨errMoreThanOneColor,
        Destination_many_colors ColorIOTA addr amount colors (by omega)⟩

/-- A valid call succeeds on a record without `nil` inner maps, and this is its effect. -/
theorem Call.option_of_valid (ColorIOTA : Color) (call : Call Addr Color WAddr)
    (hv : call.valid) (s : SendFundsOptions Addr Color WAddr) (hs : innerMapsAllocated s) :
    ∃ s', call.option ColorIOTA s = some (s', none) ∧ innerMapsAllocated s' ∧
      (∀ a c, bucket s' a c =
        if call.targets ColorIOTA a c = true then
          some (((bucket s a c).getD 0 + call.amount) % uint64Size)
        else bucket s a c) ∧
      (∀ a, hasAddress s' a = (hasAddress s a || call.toAddress a)) ∧
      s'.Destinations.isNil = (s.Destinations.isNil && !call.isDestination) ∧
      s'.RemainderAddress = (remainders [call]).getLast?.getD s.RemainderAddress := by
  cases call with
  | remainder addr =>
    refine ⟨{ s with RemainderAddress := addr }, rfl, hs, ?_, ?_, ?_, ?_⟩
    · intro a c
      simp [Call.targets, bucket]
    · intro a
      simp [Call.toAddress, hasAddress]
    · simp [Call.isDestination]
    · simp [remainders]
  | destination addr amount colors =>
    obtain ⟨hpos, hlen⟩ := hv
    obtain ⟨dests, inner, h₁, h₂, h₃, h₄, h₅⟩ :=
      destinationClosure_spec addr amount (outputColor ColorIOTA colors) s (hs addr)
    refine ⟨⟨dests, s.RemainderAddress⟩, ?_, ?_, ?_, ?_, ?_, ?_⟩
    · simp only [Call.option]
      rw [Destination_of_valid ColorIOTA addr amount colors hpos hlen]
      exact h₁
    · intro a
      simp only [h₄]
      by_cases ha : a = addr
      · simp only [ha, if_true, ne_eq, Option.some.injEq]
        intro hnil
        rw [hnil] at h₃
        simp [GoMap.isNil] at h₃
      · simp only [ha, if_false]
        exact hs a
    · intro a c
      by_cases ha : a = addr
      · subst ha
        by_cases hc : c = outputColor ColorIOTA colors
        · subst hc
          simp [bucket, h₄, h₅, Call.targets, Call.amount]
        · have hc' : ¬ outputColor ColorIOTA colors = c := fun e => hc e.symm
          simp [bucket, h₄, h₅, Call.targets, hc, hc']
      · have ha' : ¬ addr = a := fun e => ha e.symm
        simp [bucket, h₄, Call.targets, ha, ha']
    · intro a
      by_cases ha : a = addr
      · subst ha
        simp [hasAddress, h₄, Call.toAddress]
      · have ha' : ¬ addr = a := fun e => ha e.symm
        simp [hasAddress, h₄, Call.toAddress, ha, ha']
    · simp [h₂, Call.isDestination]
    · simp [remainders]

end Calls

/-! ## Sequences of options -/

section Sequences

variable {Addr Color WAddr : Type}

theorem applyOptions_append_of_ok (pre post : List (SendFundsOption Addr Color WAddr))
    (s s' : SendFundsOptions Addr Color WAddr) (h : applyOptions pre s = some (s', none)) :
    applyOptions (pre ++ post) s = applyOptions post s' := by
  induction pre generalizing s with
  | nil =>
    simp only [applyOptions, Option.some.injEq, Prod.mk.injEq, and_true] at h
    subst h
    rfl
  | cons o rest ih =>
    simp only [List.cons_append, applyOptions] at h ⊢
    cases ho : o s with
    | none => simp [ho] at h
    | some p =>
      obtain ⟨s₁, e⟩ := p
      cases e with
      | none =>
        simp only [ho] at h ⊢
        exact ih s₁ h
      | some e => simp [ho] at h

/-- The loop stops at the first option that returns an error, whatever follows it. -/
theorem applyOptions_first_error (pre post : List (SendFundsOption Addr Color WAddr))
    (o : SendFundsOption Addr Color WAddr) (s₀ s s' : SendFundsOptions Addr Color WAddr)
    (e : String) (hpre : applyOptions pre s₀ = some (s, none)) (ho : o s = some (s', some e)) :
    applyOptions (pre ++ o :: post) s₀ = some (s', some e) := by
  rw [applyOptions_append_of_ok pre (o :: post) s₀ s hpre]
  simp [applyOptions, ho]

theorem applyOptions_remainders (addrs : List WAddr) (s : SendFundsOptions Addr Color WAddr) :
    applyOptions (addrs.map Remainder) s =
      some (⟨s.Destinations, addrs.getLast?.getD s.RemainderAddress⟩, none) := by
  induction addrs generalizing s with
  | nil => rfl
  | cons a rest ih =>
    simp only [List.map_cons, applyOptions, Remainder]
    rw [ih, List.getLast?_cons]
    simp

end Sequences

section Runs

variable {Addr Color WAddr : Type} [DecidableEq Addr] [DecidableEq Color]

/-- The effect of a sequence of valid calls on a record without `nil` inner maps. -/
theorem applyOptions_of_valid (ColorIOTA : Color) (calls : List (Call Addr Color WAddr))
    (hv : ∀ call ∈ calls, call.valid) (s : SendFundsOptions Addr Color WAddr)
    (hs : innerMapsAllocated s) :
    ∃ s', applyOptions (calls.map (Call.option ColorIOTA)) s = some (s', none) ∧
      innerMapsAllocated s' ∧
      (∀ a c, bucket s' a c =
        if calls.any (Call.targets ColorIOTA a c) = true then
          some (((bucket s a c).getD 0 + amountFor ColorIOTA a c calls) % uint64Size)
        else bucket s a c) ∧
      (∀ a, hasAddress s' a = (hasAddress s a || calls.any (Call.toAddress a))) ∧
      s'.Destinations.isNil = (s.Destinations.isNil && !calls.any Call.isDestination) ∧
      s'.RemainderAddress = (remainders calls).getLast?.getD s.RemainderAddress := by
  induction calls generalizing s with
  | nil =>
    refine ⟨s, rfl, hs, ?_, ?_, ?_, ?_⟩ <;> simp [remainders]
  | cons call rest ih =>
    obtain ⟨s₁, h₁, hs₁, hb₁, ha₁, hn₁, hr₁⟩ :=
      Call.option_of_valid ColorIOTA call (hv call (List.mem_cons_self _ _)) s hs
    obtain ⟨s₂, h₂, hs₂, hb₂, ha₂, hn₂, hr₂⟩ :=
      ih (fun c hc => hv c (List.mem_cons_of_mem _ hc)) s₁ hs₁
    refine ⟨s₂, ?_, hs₂, ?_, ?_, ?_, ?_⟩
    · simp only [List.map_cons, applyOptions, h₁]
      exact h₂
    · intro a c
      rw [hb₂ a c, hb₁ a c]
      by_cases ht : call.targets ColorIOTA a c = true
      · by_cases hr : rest.any (Call.targets ColorIOTA a c) = true
        · simp only [ht, hr, List.any_cons, Bool.or_self, if_true, Option.getD_some, amountFor,
            List.filter_cons, List.map_cons, List.sum_cons]
          rw [Nat.mod_add_mod, Nat.add_assoc]
        · have hfilter : rest.filter (Call.targets ColorIOTA a c) = [] := by
            rw [List.filter_eq_nil_iff]
            intro x hx hxt
            exact hr (List.any_eq_true.mpr ⟨x, hx, hxt⟩)
          simp [ht, hr, amountFor, List.filter_cons, hfilter]
      · simp [ht, amountFor, List.filter_cons]
    · intro a
      rw [ha₂ a, ha₁ a, List.any_cons, Bool.or_assoc]
    · rw [hn₂, hn₁, List.any_cons]
      cases s.Destinations.isNil <;> cases call.isDestination <;> simp
    · rw [hr₂, hr₁]
      cases call with
      | destination addr amount colors => simp [remainders]
      | remainder addr =>
        simp only [remainders, List.filterMap_cons, List.filterMap_nil, List.getLast?_singleton,
          Option.getD_some]
        rw [List.getLast?_cons]
        simp

/-- If the loop gets through a sequence of calls without an error, every call is valid. -/
theorem valid_of_applyOptions_ok (ColorIOTA : Color) (calls : List (Call Addr Color WAddr))
    (s s' : SendFundsOptions Addr Color WAddr) (hs : innerMapsAllocated s)
    (h : applyOptions (calls.map (Call.option ColorIOTA)) s = some (s', none)) :
    ∀ call ∈ calls, call.valid := by
  induction calls generalizing s with
  | nil => simp
  | cons call rest ih =>
    by_cases hv : call.valid
    · obtain ⟨s₁, h₁, hs₁, -⟩ := Call.option_of_valid ColorIOTA call hv s hs
      simp only [List.map_cons, applyOptions, h₁] at h
      intro x hx
      rcases List.mem_cons.mp hx with rfl | hx
      · exact hv
      · exact ih s₁ hs₁ h x hx
    · obtain ⟨msg, hmsg⟩ := Call.option_of_not_valid ColorIOTA call hv
      simp [applyOptions, hmsg, optionError] at h

/-- The result of `BuildOptions` on a sequence of valid calls. -/
theorem BuildOptions_of_valid [Inhabited WAddr] (ColorIOTA : Color)
    (calls : List (Call Addr Color WAddr)) (hv : ∀ call ∈ calls, call.valid) :
    ∃ s', applyOptions (calls.map (Call.option ColorIOTA)) emptyOptions = some (s', none) ∧
      BuildOptions (calls.map (Call.option ColorIOTA)) =
        some (some s', if calls.any Call.isDestination = true then none
          else some errNoDestination) ∧
      innerMapsAllocated s' ∧
      (∀ a c, bucket s' a c =
        if calls.any (Call.targets ColorIOTA a c) = true then
          some (amountFor ColorIOTA a c calls % uint64Size)
        else none) ∧
      (∀ a, hasAddress s' a = calls.any (Call.toAddress a)) ∧
      s'.RemainderAddress = (remainders calls).getLast?.getD default := by
  have hempty : innerMapsAllocated (emptyOptions : SendFundsOptions Addr Color WAddr) := by
    intro a
    simp [emptyOptions, GoMap.lookup]
  obtain ⟨s', h₁, hs', hb, ha, hn, hr⟩ := applyOptions_of_valid ColorIOTA calls hv emptyOptions hempty
  refine ⟨s', h₁, ?_, hs', ?_, ?_, hr⟩
  · simp only [BuildOptions, h₁]
    by_cases hd : calls.any Call.isDestination = true
    · obtain ⟨call, hmem, hcall⟩ := List.any_eq_true.mp hd
      cases call with
      | remainder addr => simp [Call.isDestination] at hcall
      | destination addr amount colors =>
        have hany : calls.any (Call.toAddress addr) = true :=
          List.any_eq_true.mpr ⟨_, hmem, by simp [Call.toAddress]⟩
        have hkey : hasAddress s' addr = true := by rw [ha addr, hany, Bool.or_true]
        obtain ⟨inner, hinner⟩ := Option.isSome_iff_exists.mp hkey
        simp [hd, GoMap.len_ne_zero_of_lookup hinner]
    · have hnil : s'.Destinations.isNil = true := by
        rw [hn]
        simp [hd, emptyOptions, GoMap.isNil]
      simp [hd, GoMap.len_eq_zero_of_isNil hnil]
  · intro a c
    rw [hb a c]
    simp [bucket, emptyOptions, GoMap.lookup]
  · intro a
    rw [ha a]
    simp [hasAddress, emptyOptions, GoMap.lookup]

end Runs

section Results

variable {Addr Color WAddr : Type} [DecidableEq Addr]

theorem applyOptions_of_BuildOptions_ok [Inhabited WAddr]
    (options : List (SendFundsOption Addr Color WAddr))
    (result : SendFundsOptions Addr Color WAddr)
    (h : BuildOptions options = some (some result, none)) :
    applyOptions options emptyOptions = some (result, none) := by
  cases hrun : applyOptions options (emptyOptions : SendFundsOptions Addr Color WAddr) with
  | none => simp [BuildOptions, hrun] at h
  | some p =>
    obtain ⟨record, err⟩ := p
    cases err with
    | some e => simp [BuildOptions, hrun] at h
    | none =>
      by_cases hlen : record.Destinations.len = 0
      · simp [BuildOptions, hrun, hlen] at h
      · simp only [BuildOptions, hrun, hlen, if_false, Option.some.injEq, Prod.mk.injEq,
          and_true] at h
        rw [h]

theorem any_eq_of_perm {α : Type} (p : α → Bool) {l₁ l₂ : List α} (h : l₁.Perm l₂) :
    l₁.any p = l₂.any p := by
  rw [Bool.eq_iff_iff, List.any_eq_true, List.any_eq_true]
  constructor
  · rintro ⟨x, hx, hp⟩
    exact ⟨x, h.mem_iff.mp hx, hp⟩
  · rintro ⟨x, hx, hp⟩
    exact ⟨x, h.mem_iff.mpr hx, hp⟩

end Results

section Amounts

variable {Addr Color WAddr : Type} [DecidableEq Addr] [DecidableEq Color]

theorem amountFor_eq_of_perm (ColorIOTA : Color) (a : Addr) (c : Color)
    {l₁ l₂ : List (Call Addr Color WAddr)} (h : l₁.Perm l₂) :
    amountFor ColorIOTA a c l₁ = amountFor ColorIOTA a c l₂ :=
  ((h.filter _).map _).sum_eq

/-- A bucket that some valid call targets receives a positive arithmetic sum. -/
theorem amountFor_pos (ColorIOTA : Color) (a : Addr) (c : Color)
    (calls : List (Call Addr Color WAddr)) (hv : ∀ call ∈ calls, call.valid)
    (hany : calls.any (Call.targets ColorIOTA a c) = true) :
    0 < amountFor ColorIOTA a c calls := by
  obtain ⟨call, hmem, htarget⟩ := List.any_eq_true.mp hany
  have hle : call.amount ≤ amountFor ColorIOTA a c calls :=
    List.single_le_sum (fun x _ => Nat.zero_le x) _
      (List.mem_map.mpr ⟨call, List.mem_filter.mpr ⟨hmem, htarget⟩, rfl⟩)
  have hpos : 0 < call.amount := by
    cases call with
    | remainder addr => simp [Call.targets] at htarget
    | destination addr amount colors => exact (hv _ hmem).1
  exact Nat.lt_of_lt_of_le hpos hle

end Amounts

section Remainders

variable {Addr Color WAddr : Type} [DecidableEq Addr] [DecidableEq Color]

/-- The closure of `Destination` neither reads nor writes `RemainderAddress`. -/
theorem destinationClosure_remainder (addr : Addr) (amount : Nat) (c : Color)
    (d : GoMap Addr (GoMap Color Nat)) (r r' : WAddr) :
    destinationClosure addr amount c ⟨d, r'⟩ =
      (destinationClosure addr amount c ⟨d, r⟩).map
        (fun p => (⟨p.1.Destinations, r'⟩, p.2)) := by
  cases d with
  | nil =>
    simp [destinationClosure, GoMap.isNil, GoMap.make, GoMap.lookup, GoMap.lookupEntries,
      GoMap.store, GoMap.storeEntries, GoMap.index]
  | table es =>
    cases h₁ : GoMap.lookupEntries addr es with
    | none =>
      simp [destinationClosure, GoMap.isNil, GoMap.make, GoMap.lookup, GoMap.store,
        GoMap.index, GoMap.lookupEntries_storeEntries, h₁, GoMap.lookupEntries,
        GoMap.storeEntries]
    | some inner =>
      cases inner with
      | nil =>
        simp [destinationClosure, GoMap.isNil, GoMap.lookup, GoMap.store, GoMap.index, h₁]
      | table ies =>
        cases h₂ : GoMap.lookupEntries c ies with
        | none =>
          simp [destinationClosure, GoMap.isNil, GoMap.lookup, GoMap.store,
            GoMap.index, GoMap.lookupEntries_storeEntries, h₁, h₂]
        | some v =>
          simp [destinationClosure, GoMap.isNil, GoMap.lookup, GoMap.store,
            GoMap.index, h₁, h₂]

/-- A run without error does the same to `Destinations` when its `Remainder` calls are left
out, and then leaves `RemainderAddress` alone. -/
theorem applyOptions_filter_isDestination (ColorIOTA : Color)
    (calls : List (Call Addr Color WAddr)) (s s' t : SendFundsOptions Addr Color WAddr)
    (hst : t.Destinations = s.Destinations)
    (h : applyOptions (calls.map (Call.option ColorIOTA)) s = some (s', none)) :
    ∃ t', applyOptions ((calls.filter Call.isDestination).map (Call.option ColorIOTA)) t =
        some (t', none) ∧
      t'.Destinations = s'.Destinations ∧ t'.RemainderAddress = t.RemainderAddress := by
  induction calls generalizing s t with
  | nil =>
    simp only [List.map_nil, applyOptions, Option.some.injEq, Prod.mk.injEq, and_true] at h
    subst h
    exact ⟨t, rfl, hst, rfl⟩
  | cons call rest ih =>
    cases call with
    | remainder addr =>
      simp only [List.map_cons, Call.option, applyOptions, Remainder] at h
      have hfilter : (Call.remainder addr :: rest).filter Call.isDestination =
          rest.filter Call.isDestination := by
        simp [List.filter_cons, Call.isDestination]
      rw [hfilter]
      exact ih ⟨s.Destinations, addr⟩ t hst h
    | destination addr amount colors =>
      by_cases hv : (Call.destination addr amount colors : Call Addr Color WAddr).valid
      · have hfilter : (Call.destination addr amount colors :: rest).filter Call.isDestination =
            Call.destination addr amount colors :: rest.filter Call.isDestination := by
          simp [List.filter_cons, Call.isDestination]
        rw [hfilter]
        simp only [List.map_cons, Call.option, applyOptions,
          Destination_of_valid ColorIOTA addr amount colors hv.1 hv.2] at h ⊢
        obtain ⟨d, r⟩ := s
        obtain ⟨d', r'⟩ := t
        simp only at hst
        subst hst
        rw [destinationClosure_remainder addr amount (outputColor ColorIOTA colors) d' r r']
        cases hstep : destinationClosure addr amount (outputColor ColorIOTA colors)
            (⟨d', r⟩ : SendFundsOptions Addr Color WAddr) with
        | none => simp [hstep] at h
        | some p =>
          obtain ⟨s₁, e⟩ := p
          cases e with
          | some e => simp [hstep] at h
          | none =>
            simp only [hstep, Option.map_some'] at h ⊢
            exact ih s₁ ⟨s₁.Destinations, r'⟩ rfl h
      · obtain ⟨msg, hmsg⟩ := Call.option_of_not_valid ColorIOTA _ hv
        simp [applyOptions, hmsg, optionError] at h

end Remainders

/-! ## Properties of `BuildOptions` and of the option constructors -/

/-- C1, as stated, fails: `Destination(1, 2^64 - 1, 2)` followed by `Destination(1, 1, 2)` is
accepted by `BuildOptions`, and the bucket `Destinations[1][2]` then holds `0`, not the sum
`2^64` of the two amounts. -/
theorem C1_sum_wraps_counterexample :
    ∃ result : SendFundsOptions Nat Nat Nat,
      BuildOptions ([2 ^ 64 - 1, 1].map fun x => Destination 0 1 x [2]) = some (some result, none) ∧
      bucket result 1 2 = some 0 ∧
      bucket result 1 2 ≠ some ([2 ^ 64 - 1, 1] : List Nat).sum :=
  ⟨⟨GoMap.table [(1, GoMap.table [(2, 0)])], 0⟩, by decide, by decide, by decide⟩

/-- C1 (amended): for every address `a`, color `c` and non-empty list of amounts, each `> 0`,
`BuildOptions` on the options `Destination(a, x, c)` returns no error, and
`result.Destinations[a][c]` holds the sum of the amounts reduced modulo `2^64`; it is the
true arithmetic sum whenever that sum is below `2^64`. -/
theorem C1_destination_amounts_add_up {Addr Color WAddr : Type} [DecidableEq Addr]
    [DecidableEq Color] [Inhabited WAddr] (ColorIOTA : Color) (a : Addr) (c : Color)
    (amounts : List Nat) (hne : amounts ≠ []) (hpos : ∀ x ∈ amounts, 0 < x) :
    ∃ result : SendFundsOptions Addr Color WAddr,
      BuildOptions (amounts.map fun x => Destination ColorIOTA a x [c]) =
        some (some result, none) ∧
      bucket result a c = some (amounts.sum % uint64Size) ∧
      (amounts.sum < uint64Size → bucket result a c = some amounts.sum) := by
  let calls : List (Call Addr Color WAddr) := amounts.map fun x => Call.destination a x [c]
  have hmap : calls.map (Call.option ColorIOTA) =
      amounts.map fun x => Destination ColorIOTA a x [c] := by
    simp [calls, List.map_map, Function.comp_def, Call.option]
  have hv : ∀ call ∈ calls, call.valid := by
    intro call hcall
    obtain ⟨x, hx, rfl⟩ := List.mem_map.mp hcall
    exact ⟨hpos x hx, by simp⟩
  have hall : ∀ call ∈ calls, Call.targets ColorIOTA a c call = true := by
    intro call hcall
    obtain ⟨x, -, rfl⟩ := List.mem_map.mp hcall
    simp [Call.targets, outputColor]
  obtain ⟨x₀, hx₀⟩ := List.exists_mem_of_ne_nil amounts hne
  have hany : calls.any (Call.targets ColorIOTA a c) = true :=
    List.any_eq_true.mpr ⟨_, List.mem_map.mpr ⟨x₀, hx₀, rfl⟩, by simp [Call.targets, outputColor]⟩
  have hdest : calls.any Call.isDestination = true :=
    List.any_eq_true.mpr ⟨_, List.mem_map.mpr ⟨x₀, hx₀, rfl⟩, rfl⟩
  have hsum : amountFor ColorIOTA a c calls = amounts.sum := by
    simp only [amountFor, List.filter_eq_self.mpr hall]
    simp [calls, List.map_map, Function.comp_def, Call.amount]
  obtain ⟨s', -, hbuild, -, hb, -, -⟩ := BuildOptions_of_valid ColorIOTA calls hv
  rw [hmap] at hbuild
  have hbucket : bucket s' a c = some (amounts.sum % uint64Size) := by
    rw [hb a c, if_pos hany, hsum]
  refine ⟨s', ?_, hbucket, ?_⟩
  · simpa [hdest] using hbuild
  · intro hlt
    rw [hbucket, Nat.mod_eq_of_lt hlt]

/-- Witness of C1 (amended): the amounts `50` and `70` of the spec's second scenario. -/
theorem C1_destination_amounts_add_up_witness :
    ([50, 70] : List Nat) ≠ [] ∧ (∀ x ∈ ([50, 70] : List Nat), 0 < x) ∧
    ∃ result : SendFundsOptions Nat Nat Nat,
      BuildOptions ([50, 70].map fun x => Destination 0 1 x [2]) = some (some result, none) ∧
      bucket result 1 2 = some (([50, 70] : List Nat).sum % uint64Size) ∧
      (([50, 70] : List Nat).sum < uint64Size →
        bucket result 1 2 = some ([50, 70] : List Nat).sum) :=
  ⟨by decide, by decide, C1_destination_amounts_add_up 0 1 2 [50, 70] (by decide) (by decide)⟩

/-- C2: for every sequence of `Destination` and `Remainder` calls, `BuildOptions` returns no
error if and only if every `Destination` call has amount `> 0` and at most one color and the
sequence has at least one `Destination` call. -/
theorem C2_no_error_iff_valid_with_destination {Addr Color WAddr : Type} [DecidableEq Addr]
    [DecidableEq Color] [Inhabited WAddr] (ColorIOTA : Color)
    (calls : List (Call Addr Color WAddr)) :
    (∃ result, BuildOptions (calls.map (Call.option ColorIOTA)) = some (result, none)) ↔
      (∀ call ∈ calls, call.valid) ∧ ∃ call ∈ calls, call.isDestination = true := by
  constructor
  · rintro ⟨result, hres⟩
    have hv : ∀ call ∈ calls, call.valid := by
      have hempty : innerMapsAllocated (emptyOptions : SendFundsOptions Addr Color WAddr) := by
        intro a
        simp [emptyOptions, GoMap.lookup]
      cases hrun : applyOptions (calls.map (Call.option ColorIOTA))
          (emptyOptions : SendFundsOptions Addr Color WAddr) with
      | none => simp [BuildOptions, hrun] at hres
      | some p =>
        obtain ⟨s', e⟩ := p
        cases e with
        | none => exact valid_of_applyOptions_ok ColorIOTA calls emptyOptions s' hempty hrun
        | some e => simp [BuildOptions, hrun] at hres
    refine ⟨hv, ?_⟩
    obtain ⟨s', -, hbuild, -⟩ := BuildOptions_of_valid ColorIOTA calls hv
    by_cases hd : calls.any Call.isDestination = true
    · obtain ⟨call, hmem, hcall⟩ := List.any_eq_true.mp hd
      exact ⟨call, hmem, hcall⟩
    · rw [hbuild] at hres
      simp [hd] at hres
  · rintro ⟨hv, call, hmem, hcall⟩
    obtain ⟨s', -, hbuild, -⟩ := BuildOptions_of_valid ColorIOTA calls hv
    have hd : calls.any Call.isDestination = true := List.any_eq_true.mpr ⟨call, hmem, hcall⟩
    exact ⟨some s', by simpa [hd] using hbuild⟩

/-- C3: when the options before `o` all return no error and `o`, applied to the record they
leave, returns the error `e`, then `BuildOptions` returns exactly `e`, together with the record
as `o` left it, whatever options `post` follow `o`: none of them is applied, and the outcome
is the same for every choice of `post`. -/
theorem C3_first_error_wins {Addr Color WAddr : Type} [DecidableEq Addr] [Inhabited WAddr]
    (pre post post' : List (SendFundsOption Addr Color WAddr))
    (o : SendFundsOption Addr Color WAddr) (s s' : SendFundsOptions Addr Color WAddr)
    (e : String) (hpre : applyOptions pre emptyOptions = some (s, none))
    (ho : o s = some (s', some e)) :
    BuildOptions (pre ++ o :: post) = some (some s', some e) ∧
      BuildOptions (pre ++ o :: post) = BuildOptions (pre ++ o :: post') := by
  have key : ∀ rest, BuildOptions (pre ++ o :: rest) = some (some s', some e) := by
    intro rest
    simp [BuildOptions, applyOptions_first_error pre rest o emptyOptions s s' e hpre ho]
  exact ⟨key post, (key post).trans (key post').symm⟩

/-- Witness of C3: after `Destination(1, 5)`, the failing `Destination(1, 0)` decides the
outcome, and the `Remainder(9)` behind it is not applied. -/
theorem C3_first_error_wins_witness :
    BuildOptions ([Destination 0 1 5 []] ++ Destination 0 1 0 [] :: [Remainder 9]) =
        some (some (⟨GoMap.table [(1, GoMap.table [(0, 5)])], 0⟩ : SendFundsOptions Nat Nat Nat),
          some errZeroAmount) ∧
      BuildOptions ([Destination 0 1 5 []] ++ Destination 0 1 0 [] :: [Remainder 9]) =
        BuildOptions ([Destination 0 1 5 []] ++ Destination 0 1 0 [] ::
          ([] : List (SendFundsOption Nat Nat Nat))) :=
  C3_first_error_wins [Destination 0 1 5 []] [Remainder 9] [] (Destination 0 1 0 [])
    ⟨GoMap.table [(1, GoMap.table [(0, 5)])], 0⟩ ⟨GoMap.table [(1, GoMap.table [(0, 5)])], 0⟩
    errZeroAmount (by decide) (by decide)

/-- C4, as stated, fails: `BuildOptions(Destination(1, 5), Destination(1, 0))` returns the
amount error together with a record that is not nil and already holds the first destination. -/
theorem C4_record_returned_with_error_counterexample :
    ∃ result : SendFundsOptions Nat Nat Nat,
      BuildOptions [Destination 0 1 5 [], Destination 0 1 0 []] =
        some (some result, some errZeroAmount) ∧
      bucket result 1 0 = some 5 :=
  ⟨⟨GoMap.table [(1, GoMap.table [(0, 5)])], 0⟩, by decide, by decide⟩

/-- C4 (amended): whenever `BuildOptions` returns an error, the record component of its result
is not nil: it is the record the loop worked on, either as the failing option left it (the
error is that option's) or, when no option failed, with a `Destinations` map of length `0`
(the error is the no-destination error). -/
theorem C4_error_comes_with_record {Addr Color WAddr : Type} [DecidableEq Addr]
    [Inhabited WAddr] (options : List (SendFundsOption Addr Color WAddr))
    (result : Option (SendFundsOptions Addr Color WAddr)) (e : String)
    (h : BuildOptions options = some (result, some e)) :
    ∃ record, result = some record ∧
      (applyOptions options emptyOptions = some (record, some e) ∨
        (applyOptions options emptyOptions = some (record, none) ∧
          record.Destinations.len = 0 ∧ e = errNoDestination)) := by
  cases hrun : applyOptions options (emptyOptions : SendFundsOptions Addr Color WAddr) with
  | none => simp [BuildOptions, hrun] at h
  | some p =>
    obtain ⟨record, err⟩ := p
    cases err with
    | some e' =>
      simp only [BuildOptions, hrun, Option.some.injEq, Prod.mk.injEq] at h
      obtain ⟨h₁, h₂⟩ := h
      exact ⟨record, h₁.symm, Or.inl (by rw [h₂])⟩
    | none =>
      by_cases hlen : record.Destinations.len = 0
      · simp only [BuildOptions, hrun, hlen, if_true, Option.some.injEq, Prod.mk.injEq] at h
        obtain ⟨h₁, h₂⟩ := h
        exact ⟨record, h₁.symm, Or.inr ⟨rfl, hlen, h₂.symm⟩⟩
      · simp [BuildOptions, hrun, hlen] at h

/-- Witness of C4 (amended): the failing second option of
`BuildOptions(Destination(1, 5), Destination(1, 0))`. -/
theorem C4_error_comes_with_record_witness :
    ∃ record : SendFundsOptions Nat Nat Nat,
      some (⟨GoMap.table [(1, GoMap.table [(0, 5)])], 0⟩ : SendFundsOptions Nat Nat Nat) =
        some record ∧
      (applyOptions [Destination 0 1 5 [], Destination 0 1 0 []] emptyOptions =
          some (record, some errZeroAmount) ∨
        (applyOptions [Destination 0 1 5 [], Destination 0 1 0 []] emptyOptions =
            some (record, none) ∧
          record.Destinations.len = 0 ∧ errZeroAmount = errNoDestination)) :=
  C4_error_comes_with_record [Destination 0 1 5 [], Destination 0 1 0 []]
    (some ⟨GoMap.table [(1, GoMap.table [(0, 5)])], 0⟩) errZeroAmount (by decide)

/-- C5: for every address and every list of at most one color, `Destination(addr, 0, colors...)`
applied to any record returns the "amount needs to be larger than 0" error and leaves the
record as it was; and `BuildOptions` on any sequence that has this option behind options that
all return no error returns that error. -/
theorem C5_zero_amount_fails {Addr Color WAddr : Type} [DecidableEq Addr] [DecidableEq Color]
    [Inhabited WAddr] (ColorIOTA : Color) (addr : Addr) (colors : List Color)
    (hcolors : colors.length ≤ 1) :
    (∀ s : SendFundsOptions Addr Color WAddr,
      Destination ColorIOTA addr 0 colors s = some (s, some errZeroAmount)) ∧
    (∀ (pre post : List (SendFundsOption Addr Color WAddr))
      (s : SendFundsOptions Addr Color WAddr),
      applyOptions pre emptyOptions = some (s, none) →
      BuildOptions (pre ++ Destination ColorIOTA addr 0 colors :: post) =
        some (some s, some errZeroAmount)) := by
  have happly : ∀ s : SendFundsOptions Addr Color WAddr,
      Destination ColorIOTA addr 0 colors s = some (s, some errZeroAmount) := by
    intro s
    rw [Destination_zero_amount ColorIOTA addr colors hcolors]
    rfl
  refine ⟨happly, ?_⟩
  intro pre post s hpre
  simp [BuildOptions, applyOptions_first_error pre post _ emptyOptions s s errZeroAmount hpre
    (happly s)]

/-- Witness of C5: `Destination(1, 0)` applied to a record with a destination and a remainder
address, and `BuildOptions(Remainder(9), Destination(1, 0), Destination(1, 5))`. -/
theorem C5_zero_amount_fails_witness :
    ([] : List Nat).length ≤ 1 ∧
    Destination 0 1 0 []
        (⟨GoMap.table [(1, GoMap.table [(0, 5)])], 7⟩ : SendFundsOptions Nat Nat Nat) =
      some (⟨GoMap.table [(1, GoMap.table [(0, 5)])], 7⟩, some errZeroAmount) ∧
    BuildOptions ([Remainder 9] ++ Destination 0 1 0 [] :: [Destination 0 1 5 []]) =
      some (some (⟨GoMap.nil, 9⟩ : SendFundsOptions Nat Nat Nat), some errZeroAmount) :=
  ⟨by decide, (C5_zero_amount_fails 0 1 [] (by decide)).1 _,
    (C5_zero_amount_fails 0 1 [] (by decide)).2 [Remainder 9] [Destination 0 1 5 []] ⟨GoMap.nil, 9⟩
      (by decide)⟩

/-- C6: for every address, every amount (zero or not) and every list of two or more colors,
`Destination(addr, amount, colors...)` applied to any record returns the "more than one output
color is forbidden" error and leaves the record unchanged. -/
theorem C6_more_than_one_color_fails {Addr Color WAddr : Type} [DecidableEq Addr]
    [DecidableEq Color] (ColorIOTA : Color) (addr : Addr) (amount : Nat) (colors : List Color)
    (hcolors : 2 ≤ colors.length) (s : SendFundsOptions Addr Color WAddr) :
    Destination ColorIOTA addr amount colors s = some (s, some errMoreThanOneColor) := by
  rw [Destination_many_colors ColorIOTA addr amount colors hcolors]
  rfl

/-- Witness of C6: the spec's fourth scenario, `Destination(1, 10, 3, 4)`, on a record that
already has a destination and a remainder address. -/
theorem C6_more_than_one_color_fails_witness :
    2 ≤ ([3, 4] : List Nat).length ∧
    Destination 0 1 10 [3, 4]
        (⟨GoMap.table [(1, GoMap.table [(0, 5)])], 7⟩ : SendFundsOptions Nat Nat Nat) =
      some (⟨GoMap.table [(1, GoMap.table [(0, 5)])], 7⟩, some errMoreThanOneColor) :=
  ⟨by decide, C6_more_than_one_color_fails 0 1 10 [3, 4] (by decide) _⟩

/-- C7: `BuildOptions` on the empty sequence, and on any sequence of `Remainder` options only,
returns the "you need to provide at least one Destination" error (with a record whose
`Destinations` map is still nil). -/
theorem C7_no_destination_error {Addr Color WAddr : Type} [DecidableEq Addr]
    [Inhabited WAddr] :
    BuildOptions ([] : List (SendFundsOption Addr Color WAddr)) =
      some (some emptyOptions, some errNoDestination) ∧
    ∀ addrs : List WAddr,
      BuildOptions (addrs.map (Remainder : WAddr → SendFundsOption Addr Color WAddr)) =
        some (some ⟨GoMap.nil, addrs.getLast?.getD default⟩, some errNoDestination) := by
  have key : ∀ addrs : List WAddr,
      BuildOptions (addrs.map (Remainder : WAddr → SendFundsOption Addr Color WAddr)) =
        some (some ⟨GoMap.nil, addrs.getLast?.getD default⟩, some errNoDestination) := by
    intro addrs
    simp [BuildOptions, applyOptions_remainders, emptyOptions, GoMap.len]
  exact ⟨key [], key⟩

/-- C8: for every sequence of calls on which `BuildOptions` succeeds and whose `Remainder`
calls have, in sequence order, the addresses `front ++ [last]` (so there is at least one),
however they are interleaved with `Destination` calls, the returned record's
`RemainderAddress` is `last`. -/
theorem C8_last_remainder_wins {Addr Color WAddr : Type} [DecidableEq Addr] [DecidableEq Color]
    [Inhabited WAddr] (ColorIOTA : Color) (calls : List (Call Addr Color WAddr))
    (result : SendFundsOptions Addr Color WAddr) (front : List WAddr) (last : WAddr)
    (hok : BuildOptions (calls.map (Call.option ColorIOTA)) = some (some result, none))
    (hrem : remainders calls = front ++ [last]) :
    result.RemainderAddress = last := by
  have hrun := applyOptions_of_BuildOptions_ok _ result hok
  have hempty : innerMapsAllocated (emptyOptions : SendFundsOptions Addr Color WAddr) := by
    intro a
    simp [emptyOptions, GoMap.lookup]
  have hv := valid_of_applyOptions_ok ColorIOTA calls emptyOptions result hempty hrun
  obtain ⟨s', hrun', -, -, -, -, hr⟩ := BuildOptions_of_valid ColorIOTA calls hv
  rw [hrun] at hrun'
  simp only [Option.some.injEq, Prod.mk.injEq, and_true] at hrun'
  rw [hrun', hr, hrem, List.getLast?_concat]
  rfl

/-- Witness of C8: the spec's sixth scenario, `Destination(1, 10)`, `Remainder(8)`,
`Remainder(9)`, with one more destination behind the last remainder. -/
theorem C8_last_remainder_wins_witness :
    BuildOptions (([Call.destination 1 10 [], Call.remainder 8, Call.remainder 9,
        Call.destination 2 4 [3]] : List (Call Nat Nat Nat)).map (Call.option 0)) =
      some (some ⟨GoMap.table [(1, GoMap.table [(0, 10)]), (2, GoMap.table [(3, 4)])], 9⟩,
        none) ∧
    remainders ([Call.destination 1 10 [], Call.remainder 8, Call.remainder 9,
        Call.destination 2 4 [3]] : List (Call Nat Nat Nat)) = [8] ++ [9] ∧
    (⟨GoMap.table [(1, GoMap.table [(0, 10)]), (2, GoMap.table [(3, 4)])], 9⟩ :
      SendFundsOptions Nat Nat Nat).RemainderAddress = 9 :=
  ⟨by decide, by decide, C8_last_remainder_wins 0
    [Call.destination 1 10 [], Call.remainder 8, Call.remainder 9, Call.destination 2 4 [3]]
    ⟨GoMap.table [(1, GoMap.table [(0, 10)]), (2, GoMap.table [(3, 4)])], 9⟩ [8] 9
    (by decide) (by decide)⟩

/-- C9: for every list of `(address, color, amount)` triples with all amounts `> 0` and every
permutation of it, `BuildOptions` on the `Destination` options of the list and on those of the
permuted list return the same error value and records with the same destinations: the same
addresses are keys, and every bucket is absent in both or holds the same amount in both. -/
theorem C9_destinations_order_independent {Addr Color WAddr : Type} [DecidableEq Addr]
    [DecidableEq Color] [Inhabited WAddr] (ColorIOTA : Color)
    (l₁ l₂ : List (Addr × Color × Nat)) (hperm : l₁.Perm l₂) (hpos : ∀ t ∈ l₁, 0 < t.2.2) :
    ∃ (r₁ r₂ : SendFundsOptions Addr Color WAddr) (err : GoError),
      BuildOptions (l₁.map (tripleOption ColorIOTA)) = some (some r₁, err) ∧
      BuildOptions (l₂.map (tripleOption ColorIOTA)) = some (some r₂, err) ∧
      sameDestinations r₁ r₂ := by
  have hmap : ∀ l : List (Addr × Color × Nat),
      (l.map tripleCall).map (Call.option ColorIOTA) =
        l.map (tripleOption ColorIOTA : _ → SendFundsOption Addr Color WAddr) := by
    intro l
    simp [List.map_map, Function.comp_def, tripleCall, tripleOption, Call.option]
  have hcalls : (l₁.map (tripleCall : _ → Call Addr Color WAddr)).Perm (l₂.map tripleCall) :=
    hperm.map _
  have hv₁ : ∀ call ∈ l₁.map (tripleCall : _ → Call Addr Color WAddr), call.valid := by
    intro call hcall
    obtain ⟨t, ht, rfl⟩ := List.mem_map.mp hcall
    exact ⟨hpos t ht, by simp⟩
  have hv₂ : ∀ call ∈ l₂.map (tripleCall : _ → Call Addr Color WAddr), call.valid :=
    fun call hcall => hv₁ call (hcalls.mem_iff.mpr hcall)
  obtain ⟨r₁, -, hb₁, -, hbucket₁, haddr₁, -⟩ := BuildOptions_of_valid ColorIOTA _ hv₁
  obtain ⟨r₂, -, hb₂, -, hbucket₂, haddr₂, -⟩ := BuildOptions_of_valid ColorIOTA _ hv₂
  rw [hmap] at hb₁ hb₂
  refine ⟨r₁, r₂, _, hb₁, ?_, ?_, ?_⟩
  · rw [hb₂, any_eq_of_perm _ hcalls]
  · intro a
    rw [haddr₁ a, haddr₂ a, any_eq_of_perm _ hcalls]
  · intro a c
    rw [hbucket₁ a c, hbucket₂ a c, any_eq_of_perm _ hcalls,
      amountFor_eq_of_perm ColorIOTA a c hcalls]

/-- Witness of C9: three triples, two of them for the same bucket, and a permutation that
moves the other address to the front. -/
theorem C9_destinations_order_independent_witness :
    ([(1, 0, 5), (2, 3, 4), (1, 0, 7)] : List (Nat × Nat × Nat)).Perm
      [(2, 3, 4), (1, 0, 7), (1, 0, 5)] ∧
    (∀ t ∈ ([(1, 0, 5), (2, 3, 4), (1, 0, 7)] : List (Nat × Nat × Nat)), 0 < t.2.2) ∧
    ∃ (r₁ r₂ : SendFundsOptions Nat Nat Nat) (err : GoError),
      BuildOptions ([(1, 0, 5), (2, 3, 4), (1, 0, 7)].map (tripleOption 0)) =
        some (some r₁, err) ∧
      BuildOptions ([(2, 3, 4), (1, 0, 7), (1, 0, 5)].map (tripleOption 0)) =
        some (some r₂, err) ∧
      sameDestinations r₁ r₂ :=
  ⟨by decide, by decide, C9_destinations_order_independent 0 [(1, 0, 5), (2, 3, 4), (1, 0, 7)]
    [(2, 3, 4), (1, 0, 7), (1, 0, 5)] (by decide) (by decide)⟩

/-- C10, as stated, fails in both of its forms. `BuildOptions` accepts `Destination(1, 2^64 - 1)`
followed by `Destination(1, 1)` and returns a record whose bucket `Destinations[1][ColorIOTA]`
holds `0`; the second call is applied to a record whose leaves are all `> 0` and leaves one
with a `0` leaf. And on a record in which address `1` is bound to a nil inner map (no leaf at
all), `Destination(1, 1)` panics and yields no record. -/
theorem C10_leaf_wraps_to_zero_counterexample :
    (∃ result : SendFundsOptions Nat Nat Nat,
      BuildOptions [Destination 0 1 (2 ^ 64 - 1) [], Destination 0 1 1 []] =
        some (some result, none) ∧ ¬ leavesPositive result) ∧
    (∃ before after : SendFundsOptions Nat Nat Nat,
      leavesPositive before ∧ Destination 0 1 1 [] before = some (after, none) ∧
        ¬ leavesPositive after) ∧
    (∃ before : SendFundsOptions Nat Nat Nat,
      leavesPositive before ∧ Destination 0 1 1 [] before = none) := by
  have hzero : ¬ leavesPositive
      (⟨GoMap.table [(1, GoMap.table [(0, 0)])], 0⟩ : SendFundsOptions Nat Nat Nat) :=
    fun h => absurd (h 1 0 0 (by decide)) (by decide)
  refine ⟨⟨⟨GoMap.table [(1, GoMap.table [(0, 0)])], 0⟩, by decide, hzero⟩,
    ⟨⟨GoMap.table [(1, GoMap.table [(0, 2 ^ 64 - 1)])], 0⟩,
      ⟨GoMap.table [(1, GoMap.table [(0, 0)])], 0⟩, ?_, by decide, hzero⟩,
    ⟨⟨GoMap.table [(1, GoMap.nil)], 0⟩, ?_, by decide⟩⟩
  · intro a c v h
    by_cases ha : 1 = a
    · by_cases hc : 0 = c
      · simp [bucket, GoMap.lookup, GoMap.lookupEntries, ha, hc] at h
        omega
      · simp [bucket, GoMap.lookup, GoMap.lookupEntries, ha, hc] at h
    · simp [bucket, GoMap.lookup, GoMap.lookupEntries, ha] at h
  · intro a c v h
    by_cases ha : 1 = a
    · simp [bucket, GoMap.lookup, GoMap.lookupEntries, ha] at h
    · simp [bucket, GoMap.lookup, GoMap.lookupEntries, ha] at h

/-- C10 (amended): for every sequence of calls on which `BuildOptions` succeeds and in which
the amounts for each bucket add up to less than `2^64`, every amount stored in the returned
`Destinations` map is `> 0`. And a `Destination` option with amount `> 0`, applied to a record
whose leaves are all `> 0`, in which the address is not bound to a nil inner map and the
amount already in the bucket plus the new amount is below `2^64`, returns with a record whose
leaves are all `> 0`. -/
theorem C10_leaves_positive_without_overflow {Addr Color WAddr : Type} [DecidableEq Addr]
    [DecidableEq Color] [Inhabited WAddr] (ColorIOTA : Color) :
    (∀ (calls : List (Call Addr Color WAddr)) (result : SendFundsOptions Addr Color WAddr),
      BuildOptions (calls.map (Call.option ColorIOTA)) = some (some result, none) →
      (∀ a c, amountFor ColorIOTA a c calls < uint64Size) →
      leavesPositive result) ∧
    (∀ (s : SendFundsOptions Addr Color WAddr) (addr : Addr) (amount : Nat)
      (colors : List Color),
      leavesPositive s → 0 < amount →
      s.Destinations.lookup addr ≠ some GoMap.nil →
      (bucket s addr (outputColor ColorIOTA colors)).getD 0 + amount < uint64Size →
      ∃ s' err, Destination ColorIOTA addr amount colors s = some (s', err) ∧
        leavesPositive s') := by
  constructor
  · intro calls result hok hsmall a c v hv
    have hrun := applyOptions_of_BuildOptions_ok _ result hok
    have hempty : innerMapsAllocated (emptyOptions : SendFundsOptions Addr Color WAddr) := by
      intro a
      simp [emptyOptions, GoMap.lookup]
    have hvalid := valid_of_applyOptions_ok ColorIOTA calls emptyOptions result hempty hrun
    obtain ⟨s', hrun', -, -, hb, -, -⟩ := BuildOptions_of_valid ColorIOTA calls hvalid
    rw [hrun] at hrun'
    simp only [Option.some.injEq, Prod.mk.injEq, and_true] at hrun'
    subst hrun'
    rw [hb a c] at hv
    by_cases hany : calls.any (Call.targets ColorIOTA a c) = true
    · rw [if_pos hany, Nat.mod_eq_of_lt (hsmall a c)] at hv
      simp only [Option.some.injEq] at hv
      rw [← hv]
      exact amountFor_pos ColorIOTA a c calls hvalid hany
    · rw [if_neg hany] at hv
      simp at hv
  · intro s addr amount colors hleaves hpos hinner hsmall
    by_cases hcolors : colors.length ≤ 1
    · obtain ⟨dests, inner, h₁, -, -, h₄, h₅⟩ :=
        destinationClosure_spec addr amount (outputColor ColorIOTA colors) s hinner
      refine ⟨⟨dests, s.RemainderAddress⟩, none, ?_, ?_⟩
      · rw [Destination_of_valid ColorIOTA addr amount colors hpos hcolors]
        exact h₁
      · intro a c v hv
        by_cases ha : a = addr
        · subst ha
          have hv' : inner.lookup c = some v := by
            simpa only [bucket, h₄, if_true, Option.some_bind] using hv
          rw [h₅ c] at hv'
          by_cases hc : c = outputColor ColorIOTA colors
          · rw [if_pos hc, Nat.mod_eq_of_lt hsmall, Option.some.injEq] at hv'
            omega
          · rw [if_neg hc] at hv'
            exact hleaves a c v hv'
        · have hv' : (s.Destinations.lookup a).bind (fun m => m.lookup c) = some v := by
            simpa only [bucket, h₄, ha, if_false] using hv
          exact hleaves a c v hv'
    · refine ⟨s, some errMoreThanOneColor, ?_, hleaves⟩
      rw [Destination_many_colors ColorIOTA addr amount colors (by omega)]
      rfl

/-- Witness of C10 (amended): `BuildOptions(Destination(1, 5), Destination(1, 7))`, and
`Destination(1, 7)` applied to the record the first call leaves. -/
theorem C10_leaves_positive_without_overflow_witness :
    leavesPositive (⟨GoMap.table [(1, GoMap.table [(0, 12)])], 0⟩ : SendFundsOptions Nat Nat Nat) ∧
    ∃ s' err, Destination 0 1 7 []
        (⟨GoMap.table [(1, GoMap.table [(0, 5)])], 0⟩ : SendFundsOptions Nat Nat Nat) =
          some (s', err) ∧ leavesPositive s' := by
  have hfive : leavesPositive
      (⟨GoMap.table [(1, GoMap.table [(0, 5)])], 0⟩ : SendFundsOptions Nat Nat Nat) := by
    intro a c v h
    by_cases ha : 1 = a
    · by_cases hc : 0 = c
      · simp [bucket, GoMap.lookup, GoMap.lookupEntries, ha, hc] at h
        omega
      · simp [bucket, GoMap.lookup, GoMap.lookupEntries, ha, hc] at h
    · simp [bucket, GoMap.lookup, GoMap.lookupEntries, ha] at h
  have hsum : ∀ a c : Nat, amountFor 0 a c
      ([Call.destination 1 5 [], Call.destination 1 7 []] : List (Call Nat Nat Nat)) <
        uint64Size := by
    intro a c
    have hle : amountFor 0 a c
        ([Call.destination 1 5 [], Call.destination 1 7 []] : List (Call Nat Nat Nat)) ≤ 12 := by
      by_cases h : (decide (1 = a) && decide (0 = c)) = true <;>
        simp [amountFor, Call.targets, outputColor, Call.amount, List.filter_cons, h]
    exact Nat.lt_of_le_of_lt hle (by decide)
  exact ⟨(C10_leaves_positive_without_overflow 0).1
      [Call.destination 1 5 [], Call.destination 1 7 []] _ (by decide) hsum,
    (C10_leaves_positive_without_overflow 0).2 _ 1 7 [] hfive (by decide) (by decide)
      (by decide)⟩

/-- C11: for every address `addr` and every amount `> 0` (a `uint64`, so below `2^64`),
`BuildOptions` on the single option `Destination(addr, amount)` without color returns no error
and the record whose `Destinations` map is exactly `{addr: {ColorIOTA: amount}}` and whose
`RemainderAddress` is the zero value of the address type. -/
theorem C11_single_destination {Addr Color WAddr : Type} [DecidableEq Addr] [DecidableEq Color]
    [Inhabited WAddr] (ColorIOTA : Color) (addr : Addr) (amount : Nat) (hpos : 0 < amount)
    (hrange : amount < uint64Size) :
    BuildOptions [(Destination ColorIOTA addr amount [] : SendFundsOption Addr Color WAddr)] =
      some (some ⟨GoMap.table [(addr, GoMap.table [(ColorIOTA, amount)])], default⟩, none) := by
  rw [Destination_of_valid ColorIOTA addr amount [] hpos (by simp)]
  simp [BuildOptions, applyOptions, destinationClosure, emptyOptions, outputColor, GoMap.isNil,
    GoMap.make, GoMap.lookup, GoMap.lookupEntries, GoMap.store, GoMap.storeEntries, GoMap.index,
    GoMap.len, Nat.mod_eq_of_lt hrange]

/-- Witness of C11: the spec's first scenario, `Destination(1, 100)`. -/
theorem C11_single_destination_witness :
    0 < 100 ∧ 100 < uint64Size ∧
    BuildOptions [(Destination 0 1 100 [] : SendFundsOption Nat Nat Nat)] =
      some (some ⟨GoMap.table [(1, GoMap.table [(0, 100)])], default⟩, none) :=
  ⟨by decide, by decide, C11_single_destination 0 1 100 (by decide) (by decide)⟩

/-- C13: for every record and every address `a`, applying `Remainder(a)` returns no error and
the record with `RemainderAddress` set to `a`, whatever it was before, and with the same
`Destinations` map; hence applying `Remainder(a)` to the record it returned gives that same
record again. -/
theorem C13_remainder_overwrites {Addr Color WAddr : Type} (a : WAddr)
    (s : SendFundsOptions Addr Color WAddr) :
    Remainder a s = some (⟨s.Destinations, a⟩, none) ∧
    (Remainder a s).bind (fun p => Remainder a p.1) = Remainder a s :=
  ⟨rfl, rfl⟩

/-- C14: for every error value `e` (nil included) and every record, applying `optionError(e)`
returns exactly `e` and leaves the record, `Destinations` and `RemainderAddress`, unchanged. -/
theorem C14_optionError_returns_error {Addr Color WAddr : Type} (e : GoError)
    (s : SendFundsOptions Addr Color WAddr) :
    optionError e s = some (s, e) ∧
    (optionError e s).map (fun p => (p.1.Destinations, p.1.RemainderAddress)) =
      some (s.Destinations, s.RemainderAddress) :=
  ⟨rfl, rfl⟩

/-- C16: for every address and every list of two or more colors, `Destination(addr, 0,
colors...)` fails with the "more than one output color" error, which is not the "amount needs
to be larger than 0" error: the color count is checked before the amount. -/
theorem C16_color_count_checked_first {Addr Color WAddr : Type} [DecidableEq Addr]
    [DecidableEq Color] (ColorIOTA : Color) (addr : Addr) (colors : List Color)
    (hcolors : 2 ≤ colors.length) (s : SendFundsOptions Addr Color WAddr) :
    Destination ColorIOTA addr 0 colors s = some (s, some errMoreThanOneColor) ∧
    Destination ColorIOTA addr 0 colors s ≠ some (s, some errZeroAmount) := by
  have h : Destination ColorIOTA addr 0 colors s = some (s, some errMoreThanOneColor) := by
    rw [Destination_many_colors ColorIOTA addr 0 colors hcolors]
    rfl
  refine ⟨h, ?_⟩
  rw [h]
  intro hEq
  simp only [Option.some.injEq, Prod.mk.injEq, true_and] at hEq
  exact absurd hEq (by decide)

/-- Witness of C16: `Destination(1, 0, 3, 4)` on the empty record. -/
theorem C16_color_count_checked_first_witness :
    2 ≤ ([3, 4] : List Nat).length ∧
    Destination 0 1 0 [3, 4] (emptyOptions : SendFundsOptions Nat Nat Nat) =
      some (emptyOptions, some errMoreThanOneColor) ∧
    Destination 0 1 0 [3, 4] (emptyOptions : SendFundsOptions Nat Nat Nat) ≠
      some (emptyOptions, some errZeroAmount) :=
  ⟨by decide, C16_color_count_checked_first 0 1 [3, 4] (by decide) emptyOptions⟩

/-- C17: for every address, every amount and every record, `Destination(addr, amount)` and
`Destination(addr, amount, ColorIOTA)` return the same error and the same record (they are
the same option), so either of them can stand for the other in any sequence given to
`BuildOptions`; and a color-less destination followed by one with the color `ColorIOTA` for
the same address, both with amounts `> 0`, end up in the one bucket `(addr, ColorIOTA)`. -/
theorem C17_no_color_is_native_color {Addr Color WAddr : Type} [DecidableEq Addr]
    [DecidableEq Color] [Inhabited WAddr] (ColorIOTA : Color) (addr : Addr) (amount : Nat) :
    (∀ s : SendFundsOptions Addr Color WAddr,
      Destination ColorIOTA addr amount [] s = Destination ColorIOTA addr amount [ColorIOTA] s) ∧
    (∀ pre post : List (SendFundsOption Addr Color WAddr),
      BuildOptions (pre ++ Destination ColorIOTA addr amount [] :: post) =
        BuildOptions (pre ++ Destination ColorIOTA addr amount [ColorIOTA] :: post)) ∧
    (∀ other : Nat, 0 < amount → 0 < other →
      ∃ result : SendFundsOptions Addr Color WAddr,
        BuildOptions [Destination ColorIOTA addr amount [],
          Destination ColorIOTA addr other [ColorIOTA]] = some (some result, none) ∧
        bucket result addr ColorIOTA = some ((amount + other) % uint64Size) ∧
        ∀ c, c ≠ ColorIOTA → bucket result addr c = none) := by
  have h : (Destination ColorIOTA addr amount [] : SendFundsOption Addr Color WAddr) =
      Destination ColorIOTA addr amount [ColorIOTA] := rfl
  refine ⟨fun s => by rw [h], fun pre post => by rw [h], ?_⟩
  intro other hamount hother
  have hv : ∀ call ∈ ([Call.destination addr amount [], Call.destination addr other [ColorIOTA]] :
      List (Call Addr Color WAddr)), call.valid := by
    intro call hcall
    simp only [List.mem_cons, List.mem_singleton, List.not_mem_nil, or_false] at hcall
    rcases hcall with rfl | rfl
    · exact ⟨hamount, by simp⟩
    · exact ⟨hother, by simp⟩
  obtain ⟨s', -, hbuild, -, hb, -, -⟩ := BuildOptions_of_valid ColorIOTA _ hv
  refine ⟨s', ?_, ?_, ?_⟩
  · simpa [Call.option, Call.isDestination] using hbuild
  · rw [hb addr ColorIOTA]
    simp [Call.targets, outputColor, amountFor, Call.amount]
  · intro c hc
    have hc' : ¬ ColorIOTA = c := fun e => hc e.symm
    rw [hb addr c]
    simp [Call.targets, outputColor, hc']

/-- Witness of C17: `Destination(1, 5)` followed by `Destination(1, 7, ColorIOTA)`. -/
theorem C17_no_color_is_native_color_witness :
    0 < 5 ∧ 0 < 7 ∧
    ∃ result : SendFundsOptions Nat Nat Nat,
      BuildOptions [Destination 0 1 5 [], Destination 0 1 7 [0]] = some (some result, none) ∧
      bucket result 1 0 = some ((5 + 7) % uint64Size) ∧
      ∀ c, c ≠ 0 → bucket result 1 c = none :=
  ⟨by decide, by decide, (C17_no_color_is_native_color 0 1 5).2.2 7 (by decide) (by decide)⟩

/-- C12, as stated, fails: on a record in which address `1` is bound to a nil inner map,
`Destination(1, 1, 2)` does not return at all (the write into the nil inner map panics), so
it does not return "no error". -/
theorem C12_nil_inner_map_counterexample :
    0 < 1 ∧
    Destination 0 1 1 [2]
      (⟨GoMap.table [(1, GoMap.nil)], 0⟩ : SendFundsOptions Nat Nat Nat) = none :=
  ⟨by decide, by decide⟩

/-- C12 (amended): for every record in which the address `a` is not bound to a nil inner map,
every color `c` and every amount `> 0`, applying `Destination(a, amount, c)` returns no error,
leaves `RemainderAddress` unchanged, leaves the inner map of every other address as it was,
and leaves every bucket `(a', c')` other than `(a, c)` unchanged: present with the same
amount if it was present, absent if it was absent. -/
theorem C12_destination_frame {Addr Color WAddr : Type} [DecidableEq Addr] [DecidableEq Color]
    (ColorIOTA : Color) (s : SendFundsOptions Addr Color WAddr) (a : Addr) (c : Color)
    (amount : Nat) (hpos : 0 < amount) (hinner : s.Destinations.lookup a ≠ some GoMap.nil) :
    ∃ s', Destination ColorIOTA a amount [c] s = some (s', none) ∧
      s'.RemainderAddress = s.RemainderAddress ∧
      (∀ a', a' ≠ a → s'.Destinations.lookup a' = s.Destinations.lookup a') ∧
      (∀ a' c', ¬ (a' = a ∧ c' = c) → bucket s' a' c' = bucket s a' c') := by
  obtain ⟨dests, inner, h₁, -, -, h₄, h₅⟩ := destinationClosure_spec a amount c s hinner
  refine ⟨⟨dests, s.RemainderAddress⟩, ?_, rfl, ?_, ?_⟩
  · rw [Destination_of_valid ColorIOTA a amount [c] hpos (by simp)]
    exact h₁
  · intro a' ha'
    simp only [h₄, ha', if_false]
  · intro a' c' hne
    by_cases ha : a' = a
    · subst ha
      have hc : ¬ c' = c := fun e => hne ⟨rfl, e⟩
      simp only [bucket, h₄, if_true, Option.some_bind, h₅, hc, if_false]
    · simp only [bucket, h₄, ha, if_false]

/-- Witness of C12 (amended): `Destination(1, 7, 0)` on a record with the buckets `(1, 0)`,
`(1, 3)` and `(2, 0)` and the remainder address `9`. -/
theorem C12_destination_frame_witness :
    0 < 7 ∧
    ∃ s', Destination 0 1 7 [0]
        (⟨GoMap.table [(1, GoMap.table [(0, 5), (3, 4)]), (2, GoMap.table [(0, 6)])], 9⟩ :
          SendFundsOptions Nat Nat Nat) = some (s', none) ∧
      s'.RemainderAddress = 9 ∧
      (∀ a', a' ≠ 1 → s'.Destinations.lookup a' =
        (GoMap.table [(1, GoMap.table [(0, 5), (3, 4)]), (2, GoMap.table [(0, 6)])] :
          GoMap Nat (GoMap Nat Nat)).lookup a') ∧
      (∀ a' c', ¬ (a' = 1 ∧ c' = 0) → bucket s' a' c' =
        bucket (⟨GoMap.table [(1, GoMap.table [(0, 5), (3, 4)]), (2, GoMap.table [(0, 6)])], 9⟩ :
          SendFundsOptions Nat Nat Nat) a' c') :=
  ⟨by decide, C12_destination_frame 0
    ⟨GoMap.table [(1, GoMap.table [(0, 5), (3, 4)]), (2, GoMap.table [(0, 6)])], 9⟩ 1 0 7
    (by decide) (by decide)⟩

/-- C15: for every sequence of valid calls with at least one `Destination` call, `BuildOptions`
succeeds; the returned record has an entry for the bucket `(a, c)` exactly when some
`Destination` call of the sequence targets `(a, c)` (no color counting as `ColorIOTA`), and
the entry holds the sum of the amounts of all those calls modulo `2^64`; and `BuildOptions`
on the sequence without its `Remainder` calls succeeds with the very same `Destinations`
map. -/
theorem C15_reference_characterisation {Addr Color WAddr : Type} [DecidableEq Addr]
    [DecidableEq Color] [Inhabited WAddr] (ColorIOTA : Color)
    (calls : List (Call Addr Color WAddr)) (hv : ∀ call ∈ calls, call.valid)
    (hd : ∃ call ∈ calls, call.isDestination = true) :
    ∃ result, BuildOptions (calls.map (Call.option ColorIOTA)) = some (some result, none) ∧
      (∀ a c, bucket result a c =
        if calls.any (Call.targets ColorIOTA a c) = true then
          some (amountFor ColorIOTA a c calls % uint64Size)
        else none) ∧
      ∃ result', BuildOptions ((calls.filter Call.isDestination).map (Call.option ColorIOTA)) =
          some (some result', none) ∧
        result'.Destinations = result.Destinations := by
  obtain ⟨call, hmem, hcall⟩ := hd
  have hany : calls.any Call.isDestination = true := List.any_eq_true.mpr ⟨call, hmem, hcall⟩
  obtain ⟨s', hrun, hbuild, -, hb, -, -⟩ := BuildOptions_of_valid ColorIOTA calls hv
  rw [if_pos hany] at hbuild
  have hlen : s'.Destinations.len ≠ 0 := by
    intro hzero
    simp [BuildOptions, hrun, hzero] at hbuild
  obtain ⟨t', hrun', hdest, -⟩ :=
    applyOptions_filter_isDestination ColorIOTA calls emptyOptions s' emptyOptions rfl hrun
  refine ⟨s', hbuild, hb, t', ?_, hdest⟩
  simp [BuildOptions, hrun', hdest, hlen]

/-- Witness of C15: two destinations for the bucket `(1, ColorIOTA)`, one for `(2, 3)`, and
two remainders in between. -/
theorem C15_reference_characterisation_witness :
    ∃ result : SendFundsOptions Nat Nat Nat,
      BuildOptions (([Call.destination 1 5 [], Call.remainder 8, Call.destination 2 4 [3],
        Call.remainder 9, Call.destination 1 7 [0]] : List (Call Nat Nat Nat)).map
          (Call.option 0)) = some (some result, none) ∧
      (∀ a c, bucket result a c =
        if ([Call.destination 1 5 [], Call.remainder 8, Call.destination 2 4 [3],
          Call.remainder 9, Call.destination 1 7 [0]] : List (Call Nat Nat Nat)).any
            (Call.targets 0 a c) = true then
          some (amountFor 0 a c ([Call.destination 1 5 [], Call.remainder 8,
            Call.destination 2 4 [3], Call.remainder 9, Call.destination 1 7 [0]] :
              List (Call Nat Nat Nat)) % uint64Size)
        else none) ∧
      ∃ result', BuildOptions ((([Call.destination 1 5 [], Call.remainder 8,
          Call.destination 2 4 [3], Call.remainder 9, Call.destination 1 7 [0]] :
            List (Call Nat Nat Nat)).filter Call.isDestination).map (Call.option 0)) =
          some (some result', none) ∧
        result'.Destinations = result.Destinations :=
  C15_reference_characterisation 0 _ (by decide) (by decide)

end Wallet
